import Mathlib

/-!
Verification of the kline fetcher in `date_helper.py` (class
`BinanceKlinesFetcher`), as a shallow embedding in Lean 4.

HTTP responses are modelled as oracles: `get_klines` consumes one
`Response` per retry attempt, and `fetch_all_klines` consumes one page
outcome (`Option (List Kline)`, `none` standing for `get_klines`
returning `None`) per request, indexed by the request's startTime cursor
and by how many requests were made before it.  Sleeps are recorded in
traces instead of being performed.  The `while` loop of
`fetch_all_klines` is run on explicit fuel, since for adversarial
oracles the Python loop need not terminate.
-/

/-- A raw wire-format value inside a kline row: the Binance JSON rows mix
integers (timestamps, trade counts) and numeric strings (prices, volumes). -/
inductive Raw
  | int (n : Int)
  | str (s : String)
deriving DecidableEq, Repr

/-- Reading a raw value as an integer (Python `int(...)` / use as a number).
Numeric strings are parsed; a non-numeric string defaults to 0. -/
def rawInt : Raw → Int
  | Raw.int n => n
  | Raw.str s => (s.toInt?).getD 0

/-- One raw kline row as returned by the endpoint: a list of raw fields
(12 of them in the wire format). -/
abbrev Kline := List Raw

/-- `row[0]`: the open time of a kline row, in epoch milliseconds. -/
def openTime (k : Kline) : Int :=
  rawInt (k.headD (Raw.int 0))

/-! ## `get_klines`: single-page fetch with retry (lines 28-86) -/

/-- Outcome of one HTTP attempt inside `get_klines`.  `rateLimited w` is an
HTTP 429/418 answer whose `Retry-After` header is `w` (absent when `none`);
`success rows` is HTTP 200 with the parsed JSON body; `httpError s` is any
other status; `timeout` and `exn` are `requests.exceptions.Timeout` and any
other raised exception. -/
inductive Response
  | rateLimited (retry_after : Option Nat)
  | success (rows : List Kline)
  | httpError (status : Nat)
  | timeout
  | exn
deriving DecidableEq, Repr

/-- What an execution of `get_klines` did: its return value (`none` is
Python `None`), how many attempts (HTTP requests) it made, and the
durations it slept, in order. -/
structure GetTrace where
  result : Option (List Kline)
  attempts : Nat
  sleeps : List Nat
deriving DecidableEq, Repr

/-- The `for attempt in range(self.max_retries)` loop of `get_klines`
(lines 50-86), from loop index `attempt` onward.  The 429/418 branch
sleeps `Retry-After` (default 60) and `continue`s — which advances the
`for` counter; any other non-success outcome sleeps `(attempt+1)*2` and
retries while `attempt < max_retries - 1`, else returns `None`; falling
off the loop returns `None`. -/
def get_klines_go (max_retries : Nat) (responses : Nat → Response)
    (attempt : Nat) (sleeps : List Nat) : GetTrace :=
  if _h : attempt < max_retries then
    match responses attempt with
    | Response.rateLimited retry_after =>
        get_klines_go max_retries responses (attempt + 1)
          (sleeps ++ [retry_after.getD 60])
    | Response.success rows => ⟨some rows, attempt + 1, sleeps⟩
    | Response.httpError _ =>
        if attempt < max_retries - 1 then
          get_klines_go max_retries responses (attempt + 1)
            (sleeps ++ [(attempt + 1) * 2])
        else ⟨none, attempt + 1, sleeps⟩
    | Response.timeout =>
        if attempt < max_retries - 1 then
          get_klines_go max_retries responses (attempt + 1)
            (sleeps ++ [(attempt + 1) * 2])
        else ⟨none, attempt + 1, sleeps⟩
    | Response.exn =>
        if attempt < max_retries - 1 then
          get_klines_go max_retries responses (attempt + 1)
            (sleeps ++ [(attempt + 1) * 2])
        else ⟨none, attempt + 1, sleeps⟩
  else ⟨none, attempt, sleeps⟩
termination_by max_retries - attempt

/-- `get_klines` (lines 28-86): run the retry loop from attempt 0.  The
oracle `responses` gives the outcome of the `i`-th HTTP attempt. -/
def get_klines (max_retries : Nat) (responses : Nat → Response) : GetTrace :=
  get_klines_go max_retries responses 0 []

/-- An attempt outcome that is neither HTTP 200 nor a 429/418 rate limit:
other status, timeout, or transport exception. -/
def isHardFailure : Response → Bool
  | Response.httpError _ => true
  | Response.timeout => true
  | Response.exn => true
  | _ => false

/-- An attempt outcome that is an HTTP 429/418 rate limit. -/
def isRateLimited : Response → Bool
  | Response.rateLimited _ => true
  | _ => false

/-- The sleep the rate-limit branch performs for a response:
`int(response.headers.get('Retry-After', 60))`. -/
def retryWait : Response → Nat
  | Response.rateLimited w => w.getD 60
  | _ => 0

/-! ## `fetch_all_klines`: full-range pagination loop (lines 88-139) -/

/-- The loop state of `fetch_all_klines`: accumulated rows, cursor
timestamp, number of requests issued, consecutive-failure counter. -/
structure FetchState where
  all_klines : List Kline
  current_ts : Int
  request_count : Nat
  failed_count : Nat
deriving DecidableEq, Repr

/-- Why the pagination loop stopped (`outOfFuel` is an artifact of running
the `while` loop on fuel). -/
inductive StopReason
  | failedStop
  | emptyPage
  | shortPage
  | reachedEnd
  | outOfFuel
deriving DecidableEq, Repr

/-- Page oracle: the outcome of `self.get_klines(symbol, interval,
current_ts, end_ts, 1000)` as a function of the request's startTime
(the cursor) and of how many requests were issued before it.  `none` is
Python `None` (all retries exhausted); `some rows` is a parsed page. -/
abbrev PageOracle := Int → Nat → Option (List Kline)

/-- Python truthiness test `if not klines:` on the result of
`get_klines`: true for `None` and for the empty list. -/
def notKlines : Option (List Kline) → Bool
  | none => true
  | some rows => rows.isEmpty

/-- One iteration of the `while` body of `fetch_all_klines`
(lines 110-136), given that `current_ts < end_ts` held.  `Sum.inl s`
means the loop continues with state `s`; `Sum.inr (s, r)` means it
`break`s with final state `s` for reason `r`. -/
def fetch_step (pages : PageOracle) (s : FetchState) :
    FetchState ⊕ (FetchState × StopReason) :=
  let klines := pages s.current_ts s.request_count
  let s1 : FetchState := { s with request_count := s.request_count + 1 }
  if notKlines klines then
    let s2 : FetchState := { s1 with failed_count := s1.failed_count + 1 }
    if 5 ≤ s2.failed_count then Sum.inr (s2, StopReason.failedStop)
    else Sum.inl s2
  else
    let rows := klines.getD []
    let s2 : FetchState := { s1 with failed_count := 0 }
    if rows.length = 0 then Sum.inr (s2, StopReason.emptyPage)
    else
      let s3 : FetchState := { s2 with
        all_klines := s2.all_klines ++ rows,
        current_ts := openTime (rows.getLastD []) + 1 }
      if rows.length < 1000 then Sum.inr (s3, StopReason.shortPage)
      else Sum.inl s3

/-- The `while current_ts < end_ts` loop of `fetch_all_klines`
(lines 109-136), on explicit fuel. -/
def fetch_all_go (pages : PageOracle) (end_ts : Int) :
    Nat → FetchState → FetchState × StopReason
  | 0, s => (s, StopReason.outOfFuel)
  | fuel + 1, s =>
    if s.current_ts < end_ts then
      match fetch_step pages s with
      | Sum.inl s2 => fetch_all_go pages end_ts fuel s2
      | Sum.inr r => r
    else (s, StopReason.reachedEnd)

/-- `fetch_all_klines` (lines 88-139) with the start/end dates already
resolved to millisecond timestamps: run the pagination loop from the
empty accumulator, cursor `start_ts`, zero requests and zero failures. -/
def fetch_all_klines (pages : PageOracle) (start_ts end_ts : Int)
    (fuel : Nat) : FetchState × StopReason :=
  fetch_all_go pages end_ts fuel ⟨[], start_ts, 0, 0⟩

/-- The state a step leaves behind, whether the loop continues or stops. -/
def stepState : FetchState ⊕ (FetchState × StopReason) → FetchState
  | Sum.inl s => s
  | Sum.inr (s, _) => s

/-! ## `klines_to_dataframe` and `save_to_csv` (lines 141-166) -/

/-- A cell of the converted table, tagging which pandas coercion produced
it: `dt ms` is `pd.to_datetime(·, unit='ms')` applied to the raw
millisecond value, `flt r` is `astype(float)` applied to raw `r`,
`intg n` is `astype(int)`, `cell r` is an unconverted raw value. -/
inductive Value
  | dt (ms : Int)
  | flt (r : Raw)
  | intg (n : Int)
  | cell (r : Raw)
deriving DecidableEq, Repr

/-- The 12 column names given to `pd.DataFrame` (lines 146-150). -/
def kline_columns : List String :=
  ["open_time", "open", "high", "low", "close", "volume",
   "close_time", "quote_volume", "trades", "taker_buy_base",
   "taker_buy_quote", "ignore"]

/-- The columns coerced with `astype(float)` (lines 155-156). -/
def numeric_columns : List String :=
  ["open", "high", "low", "close", "volume", "quote_volume",
   "taker_buy_base", "taker_buy_quote"]

/-- The per-column conversions of lines 152-158: `open_time` and
`close_time` become date-times from millisecond epochs, the numeric
columns become floats, `trades` becomes an integer, anything else is
left as-is. -/
def convert_cell (col : String) (r : Raw) : Value :=
  if col = "open_time" || col = "close_time" then Value.dt (rawInt r)
  else if numeric_columns.contains col then Value.flt r
  else if col = "trades" then Value.intg (rawInt r)
  else Value.cell r

/-- One raw row through the conversions and through
`df.drop('ignore', axis=1)`: pair each field with its column name,
drop the `ignore` field, convert the rest. -/
def convert_row (row : List Raw) : List Value :=
  ((kline_columns.zip row).filter (fun p => p.1 ≠ "ignore")).map
    (fun p => convert_cell p.1 p.2)

/-- The converted table: named columns and one list of cells per row. -/
structure DataFrame where
  columns : List String
  rows : List (List Value)
deriving DecidableEq, Repr

/-- pandas `df.empty`: true when the frame has no rows or no columns. -/
def DataFrame.empty (df : DataFrame) : Bool :=
  df.rows.isEmpty || df.columns.isEmpty

/-- `klines_to_dataframe` (lines 141-160): `if not klines: return
pd.DataFrame()` yields the empty frame; otherwise build the 12-column
frame, apply the conversions, and drop the `ignore` column. -/
def klines_to_dataframe (klines : List (List Raw)) : DataFrame :=
  if klines.isEmpty then ⟨[], []⟩
  else ⟨kline_columns.filter (fun c => c ≠ "ignore"), klines.map convert_row⟩

/-- A written CSV file: the header line and the data lines.
`to_csv(filename, index=False)` writes the column names as the header and
one line per row, with no index column prepended. -/
structure CsvFile where
  header : List String
  dataRows : List (List Value)
deriving DecidableEq, Repr

/-- `save_to_csv` (lines 162-166): write only when `not df.empty`;
`none` means no file was written at all. -/
def save_to_csv (df : DataFrame) : Option CsvFile :=
  if !df.empty then some ⟨df.columns, df.rows⟩ else none

/-- One concrete 12-field wire-format row (timestamps and trade count as
integers, prices and volumes as numeric strings), used as test input. -/
def sampleRow : List Raw :=
  [Raw.int 1000, Raw.str "1.0", Raw.str "2.0", Raw.str "0.5", Raw.str "1.5",
   Raw.str "9", Raw.int 1999, Raw.str "8", Raw.int 42, Raw.str "3",
   Raw.str "4", Raw.str "0"]

/-! ## Helper lemmas -/

/-- Unfolding of the `get_klines` retry loop when every attempt is
rate-limited: the `continue` consumes loop iterations, so the loop ends
after `max_retries` attempts with `None`, having slept each attempt's
`Retry-After` duration. -/
lemma get_klines_go_rate (m : Nat) (responses : Nat → Response)
    (H : ∀ i, i < m → isRateLimited (responses i) = true) :
    ∀ (n attempt : Nat), attempt ≤ m → m - attempt ≤ n → ∀ sleeps,
      get_klines_go m responses attempt sleeps =
        ⟨none, m, sleeps ++ (List.range' attempt (m - attempt)).map
          (fun i => retryWait (responses i))⟩ := by
  intro n
  induction n with
  | zero =>
    intro attempt h1 h2 sleeps
    have hm : attempt = m := by omega
    subst hm
    rw [get_klines_go]
    simp
  | succ n ih =>
    intro attempt h1 h2 sleeps
    by_cases hc : attempt < m
    · rw [get_klines_go]
      rw [dif_pos hc]
      cases hr : responses attempt with
      | rateLimited w =>
        refine Eq.trans (ih (attempt + 1) (by omega) (by omega)
          (sleeps ++ [w.getD 60])) ?_
        have hrange : List.range' attempt (m - attempt) =
            attempt :: List.range' (attempt + 1) (m - (attempt + 1)) := by
          have hs : m - attempt = (m - (attempt + 1)) + 1 := by omega
          rw [hs, List.range'_succ]
        rw [hrange]
        simp [retryWait, hr]
      | success rows =>
        have := H attempt hc
        rw [hr] at this
        simp [isRateLimited] at this
      | httpError st =>
        have := H attempt hc
        rw [hr] at this
        simp [isRateLimited] at this
      | timeout =>
        have := H attempt hc
        rw [hr] at this
        simp [isRateLimited] at this
      | exn =>
        have := H attempt hc
        rw [hr] at this
        simp [isRateLimited] at this
    · have hm : attempt = m := by omega
      subst hm
      rw [get_klines_go]
      simp

/-- Unfolding of the `get_klines` retry loop when every attempt is a
non-rate-limit failure: the loop ends after `max_retries` attempts with
`None`, sleeping `(attempt+1)*2` between consecutive attempts (not after
the last one). -/
lemma get_klines_go_hard (m : Nat) (responses : Nat → Response)
    (H : ∀ i, i < m → isHardFailure (responses i) = true) :
    ∀ (n attempt : Nat), attempt ≤ m → m - attempt ≤ n → ∀ sleeps,
      get_klines_go m responses attempt sleeps =
        ⟨none, m, sleeps ++ (List.range' attempt (m - 1 - attempt)).map
          (fun i => (i + 1) * 2)⟩ := by
  intro n
  induction n with
  | zero =>
    intro attempt h1 h2 sleeps
    have hm : attempt = m := by omega
    subst hm
    rw [get_klines_go]
    simp
  | succ n ih =>
    intro attempt h1 h2 sleeps
    by_cases hc : attempt < m
    · rw [get_klines_go, dif_pos hc]
      have hrange : attempt < m - 1 →
          List.range' attempt (m - 1 - attempt) =
            attempt :: List.range' (attempt + 1) (m - 1 - (attempt + 1)) := by
        intro hlt
        have hs : m - 1 - attempt = (m - 1 - (attempt + 1)) + 1 := by omega
        rw [hs, List.range'_succ]
      cases hr : responses attempt with
      | rateLimited w =>
        have hf := H attempt hc
        rw [hr] at hf
        simp [isHardFailure] at hf
      | success rows =>
        have hf := H attempt hc
        rw [hr] at hf
        simp [isHardFailure] at hf
      | httpError st =>
        by_cases h2c : attempt < m - 1
        · simp only [h2c, if_true]
          rw [ih (attempt + 1) (by omega) (by omega)]
          rw [hrange h2c]
          simp
        · simp only [h2c, if_false]
          have ha : attempt + 1 = m := by omega
          have hb : m - 1 - attempt = 0 := by omega
          simp [ha, hb]
      | timeout =>
        by_cases h2c : attempt < m - 1
        · simp only [h2c, if_true]
          rw [ih (attempt + 1) (by omega) (by omega)]
          rw [hrange h2c]
          simp
        · simp only [h2c, if_false]
          have ha : attempt + 1 = m := by omega
          have hb : m - 1 - attempt = 0 := by omega
          simp [ha, hb]
      | exn =>
        by_cases h2c : attempt < m - 1
        · simp only [h2c, if_true]
          rw [ih (attempt + 1) (by omega) (by omega)]
          rw [hrange h2c]
          simp
        · simp only [h2c, if_false]
          have ha : attempt + 1 = m := by omega
          have hb : m - 1 - attempt = 0 := by omega
          simp [ha, hb]
    · have hm : attempt = m := by omega
      subst hm
      rw [get_klines_go]
      simp

/-- The last element with a default is a member of any nonempty list. -/
lemma getLastD_mem {α : Type} (d : α) (l : List α) (h : l ≠ []) :
    l.getLastD d ∈ l := by
  rw [List.getLastD_eq_getLast?, List.getLast?_eq_getLast l h]
  exact List.getLast_mem h

/-- In a list whose open times are strictly increasing, every row's open
time is at most the last row's open time. -/
lemma le_openTime_getLastD (l : List Kline)
    (hp : (l.map openTime).Pairwise (· < ·)) :
    ∀ r ∈ l, openTime r ≤ openTime (l.getLastD []) := by
  induction l with
  | nil => intro r hr; simp at hr
  | cons a t ih =>
    intro r hr
    cases t with
    | nil =>
      simp at hr
      subst hr
      simp [List.getLastD]
    | cons b t2 =>
      have hgl : (a :: b :: t2).getLastD ([] : Kline) =
          (b :: t2).getLastD ([] : Kline) := by
        rw [List.getLastD_eq_getLast?, List.getLastD_eq_getLast?,
          List.getLast?_cons_cons]
      rw [hgl]
      rw [List.map_cons, List.pairwise_cons] at hp
      rcases List.mem_cons.mp hr with hr | hr
      · subst hr
        have hmem : openTime ((b :: t2).getLastD []) ∈
            (b :: t2).map openTime :=
          List.mem_map_of_mem openTime (getLastD_mem [] (b :: t2) (by simp))
        exact le_of_lt (hp.1 _ hmem)
      · exact ih hp.2 r hr

/-- The loop body when `get_klines` came back falsy (`None` or `[]`):
the rows and cursor are untouched, the failure counter is incremented,
and the loop breaks exactly when the counter reaches 5. -/
lemma fetch_step_falsy (pages : PageOracle) (s : FetchState)
    (hk : notKlines (pages s.current_ts s.request_count) = true) :
    fetch_step pages s =
      if 5 ≤ s.failed_count + 1 then
        Sum.inr (⟨s.all_klines, s.current_ts, s.request_count + 1,
          s.failed_count + 1⟩, StopReason.failedStop)
      else Sum.inl ⟨s.all_klines, s.current_ts, s.request_count + 1,
        s.failed_count + 1⟩ := by
  simp only [fetch_step, hk, if_true]

/-- The loop body on a successful non-empty page: rows are appended, the
cursor moves to the last row's open time plus one, the failure counter
resets, and the loop breaks exactly when the page is short. -/
lemma fetch_step_some_cons (pages : PageOracle) (s : FetchState)
    (a : Kline) (t : List Kline)
    (hk : pages s.current_ts s.request_count = some (a :: t)) :
    fetch_step pages s =
      if (a :: t).length < 1000 then
        Sum.inr (⟨s.all_klines ++ (a :: t),
          openTime ((a :: t).getLastD []) + 1, s.request_count + 1, 0⟩,
          StopReason.shortPage)
      else Sum.inl ⟨s.all_klines ++ (a :: t),
        openTime ((a :: t).getLastD []) + 1, s.request_count + 1, 0⟩ := by
  simp only [fetch_step, hk, notKlines]
  simp only [List.isEmpty_cons, Bool.false_eq_true, if_false,
    Option.getD_some, List.length_cons]
  rw [if_neg (Nat.succ_ne_zero t.length)]

/-- The state left by a successful non-empty page, whether or not the
page was short. -/
lemma fetch_step_success (pages : PageOracle) (s : FetchState)
    (a : Kline) (t : List Kline)
    (hk : pages s.current_ts s.request_count = some (a :: t)) :
    stepState (fetch_step pages s) =
      ⟨s.all_klines ++ (a :: t), openTime ((a :: t).getLastD []) + 1,
       s.request_count + 1, 0⟩ := by
  rw [fetch_step_some_cons pages s a t hk]
  split
  · rfl
  · rfl

/-- The loop body preserves the ordering invariant: assuming every page
the oracle can return has strictly increasing open times that are at
least the requested startTime, a step keeps the accumulated series
strictly increasing and keeps every accumulated open time below the
cursor. -/
lemma fetch_step_inv (pages : PageOracle)
    (H : ∀ c k rows, pages c k = some rows →
      (rows.map openTime).Pairwise (· < ·) ∧ ∀ r ∈ rows, c ≤ openTime r)
    (s : FetchState)
    (h1 : (s.all_klines.map openTime).Pairwise (· < ·))
    (h2 : ∀ r ∈ s.all_klines, openTime r < s.current_ts) :
    ((stepState (fetch_step pages s)).all_klines.map openTime).Pairwise
      (· < ·) ∧
    ∀ r ∈ (stepState (fetch_step pages s)).all_klines,
      openTime r < (stepState (fetch_step pages s)).current_ts := by
  cases hk : pages s.current_ts s.request_count with
  | none =>
    have hred : fetch_step pages s =
        if 5 ≤ s.failed_count + 1 then
          Sum.inr (⟨s.all_klines, s.current_ts, s.request_count + 1,
            s.failed_count + 1⟩, StopReason.failedStop)
        else Sum.inl ⟨s.all_klines, s.current_ts, s.request_count + 1,
          s.failed_count + 1⟩ := by
      simp [fetch_step, hk, notKlines]
    rw [hred]
    split
    · exact ⟨h1, h2⟩
    · exact ⟨h1, h2⟩
  | some rows =>
    cases rows with
    | nil =>
      have hred : fetch_step pages s =
          if 5 ≤ s.failed_count + 1 then
            Sum.inr (⟨s.all_klines, s.current_ts, s.request_count + 1,
              s.failed_count + 1⟩, StopReason.failedStop)
          else Sum.inl ⟨s.all_klines, s.current_ts, s.request_count + 1,
            s.failed_count + 1⟩ := by
        simp [fetch_step, hk, notKlines]
      rw [hred]
      split
      · exact ⟨h1, h2⟩
      · exact ⟨h1, h2⟩
    | cons a t =>
      obtain ⟨hrp, hrge⟩ := H _ _ _ hk
      have hlast : s.current_ts ≤ openTime ((a :: t).getLastD []) :=
        hrge _ (getLastD_mem [] (a :: t) (by simp))
      have hred : stepState (fetch_step pages s) =
          ⟨s.all_klines ++ (a :: t),
           openTime ((a :: t).getLastD []) + 1, s.request_count + 1, 0⟩ :=
        fetch_step_success pages s a t hk
      rw [hred]
      constructor
      · rw [List.map_append, List.pairwise_append]
        refine ⟨h1, hrp, ?_⟩
        intro x hx y hy
        obtain ⟨rx, hrx, hxe⟩ := List.mem_map.mp hx
        obtain ⟨ry, hry, hye⟩ := List.mem_map.mp hy
        subst hxe
        subst hye
        exact lt_of_lt_of_le (h2 rx hrx) (hrge ry hry)
      · intro r hr
        show openTime r < openTime ((a :: t).getLastD []) + 1
        rcases List.mem_append.mp hr with hr | hr
        · have := h2 r hr
          omega
        · have := le_openTime_getLastD (a :: t) hrp r hr
          omega

/-- The whole pagination loop preserves the ordering invariant. -/
lemma fetch_all_go_inv (pages : PageOracle) (end_ts : Int)
    (H : ∀ c k rows, pages c k = some rows →
      (rows.map openTime).Pairwise (· < ·) ∧ ∀ r ∈ rows, c ≤ openTime r) :
    ∀ (fuel : Nat) (s : FetchState),
      (s.all_klines.map openTime).Pairwise (· < ·) →
      (∀ r ∈ s.all_klines, openTime r < s.current_ts) →
      ((fetch_all_go pages end_ts fuel s).1.all_klines.map openTime).Pairwise
        (· < ·) ∧
      ∀ r ∈ (fetch_all_go pages end_ts fuel s).1.all_klines,
        openTime r < (fetch_all_go pages end_ts fuel s).1.current_ts := by
  intro fuel
  induction fuel with
  | zero => intro s h1 h2; exact ⟨h1, h2⟩
  | succ fuel ih =>
    intro s h1 h2
    simp only [fetch_all_go]
    by_cases hc : s.current_ts < end_ts
    · rw [if_pos hc]
      have hstep := fetch_step_inv pages H s h1 h2
      cases hs : fetch_step pages s with
      | inl s2 =>
        rw [hs] at hstep
        exact ih s2 hstep.1 hstep.2
      | inr r =>
        rw [hs] at hstep
        exact hstep
    · rw [if_neg hc]
      exact ⟨h1, h2⟩

/-- Converting one 12-field raw row: the `ignore` field is dropped, the
two timestamp fields become date-times, the eight price/volume fields
become floats, and `trades` becomes an integer. -/
lemma convert_row_twelve (t0 o hi lo c v t1 q tr b q2 ig : Raw) :
    convert_row [t0, o, hi, lo, c, v, t1, q, tr, b, q2, ig] =
      [Value.dt (rawInt t0), Value.flt o, Value.flt hi, Value.flt lo,
       Value.flt c, Value.flt v, Value.dt (rawInt t1), Value.flt q,
       Value.intg (rawInt tr), Value.flt b, Value.flt q2] := rfl

/-- Dropping `ignore` from the 12 declared column names leaves the 11
retained columns in declaration order, `open_time` first. -/
lemma eleven_columns :
    kline_columns.filter (fun c => c ≠ "ignore") =
      ["open_time", "open", "high", "low", "close", "volume",
       "close_time", "quote_volume", "trades", "taker_buy_base",
       "taker_buy_quote"] := rfl

/-! ## Claims -/

/-- Claim C1 (evaluation at the failing input).  The claim says a
successful page with zero rows terminates the pagination loop
immediately, without counting a failure and without retrying the cursor.
The code's `if not klines:` treats the empty list as falsy, so an empty
successful page takes the failure branch instead: with every page fetch
returning `some []`, the loop issues 5 requests at the same cursor,
drives the consecutive-failure counter to 5 and stops via the
failure path — not via the (unreachable) empty-page break. -/
theorem c1_empty_page_behavior :
    fetch_all_klines (fun _ _ => some []) 0 1000 100 =
      (⟨[], 0, 5, 5⟩, StopReason.failedStop) := rfl

/-- Claim C2 (counterexample).  The claim says `get_klines` retries
indefinitely on persistent rate-limiting.  It does not: with
`max_retries = 3` and every response rate-limited, the loop terminates
after exactly 3 attempts, sleeping the default 60 seconds each time, and
returns `None`. -/
theorem c2_counterexample :
    get_klines 3 (fun _ => Response.rateLimited none) =
      ⟨none, 3, [60, 60, 60]⟩ := by
  simp [get_klines, get_klines_go]

/-- Claim C2 (amended).  The rate-limit branch's `continue` advances the
`for attempt in range(max_retries)` counter, so rate-limit retries are
bounded by `max_retries`: when every response is HTTP 429/418,
`get_klines` makes exactly `max_retries` attempts, sleeps each
response's `Retry-After` duration (default 60 s), and returns `None`. -/
theorem c2_rate_limit_retries_bounded (max_retries : Nat)
    (responses : Nat → Response)
    (H : ∀ i, i < max_retries → isRateLimited (responses i) = true) :
    (get_klines max_retries responses).result = none ∧
    (get_klines max_retries responses).attempts = max_retries ∧
    (get_klines max_retries responses).sleeps =
      (List.range max_retries).map (fun i => retryWait (responses i)) := by
  have h := get_klines_go_rate max_retries responses H max_retries 0
    (by omega) (by omega) []
  rw [get_klines, h]
  simp [List.range_eq_range']

/-- Witness for C2's amended theorem at `max_retries = 2` with every
response rate-limited carrying `Retry-After: 7`. -/
theorem c2_witness :
    (get_klines 2 (fun _ => Response.rateLimited (some 7))).result = none ∧
    (get_klines 2 (fun _ => Response.rateLimited (some 7))).attempts = 2 ∧
    (get_klines 2 (fun _ => Response.rateLimited (some 7))).sleeps =
      (List.range 2).map
        (fun i => retryWait ((fun _ => Response.rateLimited (some 7)) i)) :=
  c2_rate_limit_retries_bounded 2 (fun _ => Response.rateLimited (some 7))
    (fun _ _ => rfl)

/-- Claim C3.  If every page the oracle can return has strictly
increasing open times within the page, all at least the requested
startTime (the cursor), then the series accumulated by
`fetch_all_klines` has strictly increasing open times — in particular no
duplicates. -/
theorem c3_series_strictly_increasing (pages : PageOracle)
    (start_ts end_ts : Int) (fuel : Nat)
    (H : ∀ c k rows, pages c k = some rows →
      (rows.map openTime).Pairwise (· < ·) ∧ ∀ r ∈ rows, c ≤ openTime r) :
    ((fetch_all_klines pages start_ts end_ts fuel).1.all_klines.map
      openTime).Pairwise (· < ·) :=
  (fetch_all_go_inv pages end_ts H fuel ⟨[], start_ts, 0, 0⟩ (by simp)
    (by simp)).1

/-- Witness for C3 with an oracle that answers every request with one
row whose open time equals the requested startTime. -/
theorem c3_witness :
    ((fetch_all_klines (fun c _ => some [[Raw.int c]]) 0 10 5).1.all_klines.map
      openTime).Pairwise (· < ·) :=
  c3_series_strictly_increasing (fun c _ => some [[Raw.int c]]) 0 10 5
    (by
      intro c k rows h
      simp only [Option.some.injEq] at h
      subst h
      refine ⟨by simp, ?_⟩
      intro r hr
      simp only [List.mem_singleton] at hr
      subst hr
      simp [openTime, rawInt])

/-- Claim C4.  After a successful non-empty page, the loop state's
cursor — the startTime of the next request, if one is made — equals the
page's last row's open time plus 1 millisecond (`current_ts =
klines[-1][0] + 1`), so successive request windows neither overlap nor
skip. -/
theorem c4_cursor_advance (pages : PageOracle) (s : FetchState)
    (rows : List Kline)
    (hk : pages s.current_ts s.request_count = some rows)
    (hne : rows ≠ []) :
    (stepState (fetch_step pages s)).current_ts =
      openTime (rows.getLastD []) + 1 := by
  cases rows with
  | nil => exact absurd rfl hne
  | cons a t => rw [fetch_step_success pages s a t hk]

/-- Witness for C4 on a one-row page with open time 3: the new cursor is
4. -/
theorem c4_witness :
    (stepState (fetch_step (fun _ _ => some [[Raw.int 3]])
      ⟨[], 0, 0, 0⟩)).current_ts = openTime ([[Raw.int 3]].getLastD []) + 1 :=
  c4_cursor_advance (fun _ _ => some [[Raw.int 3]]) ⟨[], 0, 0, 0⟩
    [[Raw.int 3]] rfl (by simp)

/-- Claim C5 (counterexample).  The claim says the consecutive-failure
counter is reset to zero by any successful page.  It is not: after four
failed fetches, the fifth request's fetch succeeds (it returns
`some []`), yet the counter is incremented to 5 and the loop stops via
the failure path instead of being reset. -/
theorem c5_counterexample :
    ((fun (_ : Int) (k : Nat) =>
        if k < 4 then none else some ([] : List Kline)) 0 4 = some []) ∧
    fetch_all_klines (fun _ k => if k < 4 then none else some []) 0 1000 100 =
      (⟨[], 0, 5, 5⟩, StopReason.failedStop) := ⟨rfl, rfl⟩

/-- Claim C5 (amended).  A falsy page result (`None` from exhausted
retries, or a successful but empty page) increments the
consecutive-failure counter without touching the accumulated rows or the
cursor; the loop stops with `failedStop`, returning exactly the rows
accumulated so far, precisely when the counter reaches 5; and any
successful page with at least one row resets the counter to zero. -/
theorem c5_failure_counter (pages : PageOracle) (s : FetchState) :
    (notKlines (pages s.current_ts s.request_count) = true →
      (s.failed_count + 1 < 5 →
        fetch_step pages s = Sum.inl ⟨s.all_klines, s.current_ts,
          s.request_count + 1, s.failed_count + 1⟩) ∧
      (5 ≤ s.failed_count + 1 →
        fetch_step pages s = Sum.inr (⟨s.all_klines, s.current_ts,
          s.request_count + 1, s.failed_count + 1⟩,
          StopReason.failedStop))) ∧
    (∀ a t, pages s.current_ts s.request_count = some (a :: t) →
      (stepState (fetch_step pages s)).failed_count = 0) := by
  constructor
  · intro hk
    have h := fetch_step_falsy pages s hk
    constructor
    · intro hlt
      rw [h, if_neg (by omega)]
    · intro hge
      rw [h, if_pos hge]
  · intro a t hk
    rw [fetch_step_success pages s a t hk]

/-- Witness for C5's amended theorem: a failed fetch increments the
counter and keeps rows and cursor; a non-empty success resets it. -/
theorem c5_witness :
    fetch_step (fun _ _ => (none : Option (List Kline))) ⟨[], 0, 0, 0⟩ =
      Sum.inl ⟨[], 0, 1, 1⟩ ∧
    (stepState (fetch_step (fun _ _ => some [[Raw.int 5]])
      ⟨[], 0, 0, 0⟩)).failed_count = 0 :=
  ⟨((c5_failure_counter (fun _ _ => none) ⟨[], 0, 0, 0⟩).1 rfl).1 (by decide),
   (c5_failure_counter (fun _ _ => some [[Raw.int 5]]) ⟨[], 0, 0, 0⟩).2
     [Raw.int 5] [] rfl⟩

/-- Claim C6.  A successful page with fewer rows than the requested
limit of 1000 terminates the loop right after its rows are appended:
whatever fuel remains, the loop returns with `shortPage` having issued
exactly one more request, so no further page request follows. -/
theorem c6_short_page_terminates (pages : PageOracle) (end_ts : Int)
    (fuel : Nat) (s : FetchState) (a : Kline) (t : List Kline)
    (hlt : s.current_ts < end_ts)
    (hk : pages s.current_ts s.request_count = some (a :: t))
    (hshort : (a :: t).length < 1000) :
    fetch_all_go pages end_ts (fuel + 1) s =
      (⟨s.all_klines ++ (a :: t), openTime ((a :: t).getLastD []) + 1,
        s.request_count + 1, 0⟩, StopReason.shortPage) := by
  simp only [fetch_all_go]
  rw [if_pos hlt, fetch_step_some_cons pages s a t hk, if_pos hshort]

/-- Witness for C6: a one-row page stops the loop after a single
request even with fuel left. -/
theorem c6_witness :
    fetch_all_go (fun _ _ => some [[Raw.int 3]]) 10 1 ⟨[], 0, 0, 0⟩ =
      (⟨[[Raw.int 3]], 4, 1, 0⟩, StopReason.shortPage) := by
  rw [c6_short_page_terminates (fun _ _ => some [[Raw.int 3]]) 10 0
    ⟨[], 0, 0, 0⟩ [Raw.int 3] [] (by decide) rfl (by decide)]
  rfl

/-- Claim C7.  For a non-empty list of 12-field raw rows,
`klines_to_dataframe` produces a table with exactly the 11 retained
column names (`ignore` never appears), and each row is converted so
the two timestamp fields become date-times from millisecond epochs, the
eight price/volume fields become floats, and `trades` becomes an
integer. -/
theorem c7_dataframe_conversion (klines : List (List Raw))
    (hne : klines ≠ [])
    (h12 : ∀ row ∈ klines, row.length = 12) :
    (klines_to_dataframe klines).columns =
      ["open_time", "open", "high", "low", "close", "volume",
       "close_time", "quote_volume", "trades", "taker_buy_base",
       "taker_buy_quote"] ∧
    (klines_to_dataframe klines).columns.length = 11 ∧
    "ignore" ∉ (klines_to_dataframe klines).columns ∧
    (klines_to_dataframe klines).rows = klines.map convert_row ∧
    ∀ row ∈ klines, ∃ t0 o hi lo c v t1 q tr b q2 ig,
      row = [t0, o, hi, lo, c, v, t1, q, tr, b, q2, ig] ∧
      convert_row row =
        [Value.dt (rawInt t0), Value.flt o, Value.flt hi, Value.flt lo,
         Value.flt c, Value.flt v, Value.dt (rawInt t1), Value.flt q,
         Value.intg (rawInt tr), Value.flt b, Value.flt q2] := by
  have hemp : klines.isEmpty = false := by
    cases klines with
    | nil => exact absurd rfl hne
    | cons a t => rfl
  refine ⟨?_, ?_, ?_, ?_, ?_⟩
  · simp only [klines_to_dataframe, hemp, Bool.false_eq_true, if_false]
    exact eleven_columns
  · simp only [klines_to_dataframe, hemp, Bool.false_eq_true, if_false]
    rw [eleven_columns]
    rfl
  · simp only [klines_to_dataframe, hemp, Bool.false_eq_true, if_false]
    rw [eleven_columns]
    decide
  · simp only [klines_to_dataframe, hemp, Bool.false_eq_true, if_false]
  · intro row hrow
    have hlen := h12 row hrow
    rcases row with _ | ⟨t0, _ | ⟨o, _ | ⟨hi, _ | ⟨lo, _ | ⟨c, _ | ⟨v,
      _ | ⟨t1, _ | ⟨q, _ | ⟨tr, _ | ⟨b, _ | ⟨q2, _ | ⟨ig, tail⟩⟩⟩⟩⟩⟩⟩⟩⟩⟩⟩⟩ <;>
      simp only [List.length_cons, List.length_nil] at hlen
    all_goals first
      | omega
      | (have htail : tail = [] := by
          have hzero : tail.length = 0 := by omega
          exact List.length_eq_zero.mp hzero
         subst htail
         exact ⟨t0, o, hi, lo, c, v, t1, q, tr, b, q2, ig, rfl,
           convert_row_twelve t0 o hi lo c v t1 q tr b q2 ig⟩)

/-- Witness for C7 on one concrete 12-field row. -/
theorem c7_witness :
    (klines_to_dataframe [sampleRow]).columns =
      ["open_time", "open", "high", "low", "close", "volume",
       "close_time", "quote_volume", "trades", "taker_buy_base",
       "taker_buy_quote"] :=
  (c7_dataframe_conversion [sampleRow] (by simp) (by decide)).1

/-- Claim C8.  When every attempt of `get_klines` ends in a
non-rate-limit, non-success outcome (other HTTP status, timeout, or
transport exception), the loop makes at most `max_retries` attempts,
sleeps `(attemptIndex+1)*2` seconds between consecutive attempts, and
returns `None` instead of raising once attempts are exhausted. -/
theorem c8_hard_failure_retries (max_retries : Nat)
    (responses : Nat → Response)
    (H : ∀ i, i < max_retries → isHardFailure (responses i) = true) :
    (get_klines max_retries responses).result = none ∧
    (get_klines max_retries responses).attempts ≤ max_retries ∧
    (get_klines max_retries responses).sleeps =
      (List.range (max_retries - 1)).map (fun i => (i + 1) * 2) := by
  have h := get_klines_go_hard max_retries responses H max_retries 0
    (by omega) (by omega) []
  rw [get_klines, h]
  simp [List.range_eq_range']

/-- Witness for C8 at `max_retries = 3` with every attempt timing out:
3 attempts, sleeps of 2 and 4 seconds, result `None`. -/
theorem c8_witness :
    (get_klines 3 (fun _ => Response.timeout)).result = none ∧
    (get_klines 3 (fun _ => Response.timeout)).attempts ≤ 3 ∧
    (get_klines 3 (fun _ => Response.timeout)).sleeps =
      (List.range 2).map (fun i => (i + 1) * 2) :=
  c8_hard_failure_retries 3 (fun _ => Response.timeout) (fun _ _ => rfl)

/-- Claim C9 (counterexample).  The claim lists the CSV header order as
open, high, low, close, volume, close_time, quote_volume, trades,
taker_buy_base, taker_buy_quote, open_time.  The written header actually
starts with `open_time` — the declaration order of the columns with
`ignore` dropped — so the claimed order is wrong. -/
theorem c9_counterexample :
    (save_to_csv (klines_to_dataframe [sampleRow])).map CsvFile.header =
      some ["open_time", "open", "high", "low", "close", "volume",
        "close_time", "quote_volume", "trades", "taker_buy_base",
        "taker_buy_quote"] ∧
    (save_to_csv (klines_to_dataframe [sampleRow])).map CsvFile.header ≠
      some ["open", "high", "low", "close", "volume", "close_time",
        "quote_volume", "trades", "taker_buy_base", "taker_buy_quote",
        "open_time"] := by
  constructor
  · rfl
  · decide

/-- Claim C9 (amended).  The exported CSV has a header row listing the
11 retained columns in the order open_time, open, high, low, close,
volume, close_time, quote_volume, trades, taker_buy_base,
taker_buy_quote, followed by one data row per kline, with no index
column. -/
theorem c9_csv_file (klines : List (List Raw)) (hne : klines ≠ []) :
    save_to_csv (klines_to_dataframe klines) =
      some ⟨["open_time", "open", "high", "low", "close", "volume",
        "close_time", "quote_volume", "trades", "taker_buy_base",
        "taker_buy_quote"], klines.map convert_row⟩ ∧
    (klines.map convert_row).length = klines.length := by
  cases klines with
  | nil => exact absurd rfl hne
  | cons a t =>
    constructor
    · have hemp : (a :: t).isEmpty = false := rfl
      simp only [klines_to_dataframe, hemp, Bool.false_eq_true, if_false,
        eleven_columns]
      rw [save_to_csv]
      simp [DataFrame.empty]
    · simp

/-- Witness for C9's amended theorem on one concrete row. -/
theorem c9_witness :
    save_to_csv (klines_to_dataframe [sampleRow]) =
      some ⟨["open_time", "open", "high", "low", "close", "volume",
        "close_time", "quote_volume", "trades", "taker_buy_base",
        "taker_buy_quote"], [sampleRow].map convert_row⟩ :=
  (c9_csv_file [sampleRow] (by simp)).1

/-- Claim C10.  `klines_to_dataframe` on empty input returns the frame
with zero rows and zero columns — the 11 names are absent — and
`save_to_csv` on that frame writes nothing at all. -/
theorem c10_empty_input_no_file :
    klines_to_dataframe [] = ⟨[], []⟩ ∧
    (klines_to_dataframe []).columns = [] ∧
    (klines_to_dataframe []).rows = [] ∧
    save_to_csv (klines_to_dataframe []) = none :=
  ⟨rfl, rfl, rfl, rfl⟩
